import Mathlib

/-!
Verification of the zmart core program (LMSR prediction markets).

The Rust source under programs/zmart-core is shallowly embedded: u64/u32/u16
values become Nat with the checked-arithmetic bounds made explicit, i64
timestamps become Int with explicit bounds, and fallible functions return
Except ErrorCode. Loops are modelled with explicit fuel that dominates the
iteration count reachable from machine-width inputs.
-/

namespace ZmartCore

/-- Largest u64 value. -/
def U64MAX : Nat := 18446744073709551615

/-- Largest u128 value. -/
def U128MAX : Nat := 340282366920938463463374607431768211455

/-- Largest u32 value. -/
def U32MAX : Nat := 4294967295

/-- Largest i64 value. -/
def I64MAX : Int := 9223372036854775807

/-- Smallest i64 value. -/
def I64MIN : Int := -9223372036854775808

/-- Rust u64::checked_add. -/
def checkedAdd64 (a b : Nat) : Option Nat :=
  if a + b ≤ U64MAX then some (a + b) else none

/-- Rust u64::checked_sub. -/
def checkedSub64 (a b : Nat) : Option Nat :=
  if b ≤ a then some (a - b) else none

/-- Rust u64::checked_mul. -/
def checkedMul64 (a b : Nat) : Option Nat :=
  if a * b ≤ U64MAX then some (a * b) else none

/-- Rust u64::checked_div. -/
def checkedDiv64 (a b : Nat) : Option Nat :=
  if b = 0 then none else some (a / b)

/-- Rust u128::checked_mul. -/
def checkedMul128 (a b : Nat) : Option Nat :=
  if a * b ≤ U128MAX then some (a * b) else none

/-- Rust u128::checked_div. -/
def checkedDiv128 (a b : Nat) : Option Nat :=
  if b = 0 then none else some (a / b)

/-- Rust u32::checked_add. -/
def checkedAdd32 (a b : Nat) : Option Nat :=
  if a + b ≤ U32MAX then some (a + b) else none

/-- Rust i64::checked_add. -/
def checkedAddI64 (a b : Int) : Option Int :=
  if I64MIN ≤ a + b ∧ a + b ≤ I64MAX then some (a + b) else none

/-- Largest i128 value. -/
def I128MAX : Int := 170141183460469231731687303715884105727

/-- Smallest i128 value. -/
def I128MIN : Int := -170141183460469231731687303715884105728

/-- Rust i128::checked_mul. -/
def checkedMulI128 (a b : Int) : Option Int :=
  if I128MIN ≤ a * b ∧ a * b ≤ I128MAX then some (a * b) else none

/-- Rust `expr as u64` narrowing cast from an i128 value: wraps modulo 2^64.
Every use in this development narrows a value already in u64 range. -/
def castI128ToU64 (a : Int) : Nat :=
  (a % 18446744073709551616).toNat

/-- The error codes of programs/zmart-core/src/error.rs that the embedded
functions can surface. -/
inductive ErrorCode where
  | InvalidStateTransition
  | InvalidMarketState
  | CannotCancelMarket
  | MarketAlreadyCancelled
  | InsufficientShares
  | InsufficientLiquidity
  | DisputePeriodEnded
  | NoVotesRecorded
  | InsufficientVotes
  | AlreadyResolved
  | DisputePeriodNotEnded
  | AlreadyDisputed
  | Unauthorized
  | OverflowError
  | UnderflowError
  | DivisionByZero
  | ExponentTooLarge
  | InvalidInput
  | BoundedLossExceeded
  | InvalidBParameter
  | InvalidTimestamp
  | InvalidStateForVoting
  deriving DecidableEq

/-- Anchor Result type: a computation that either aborts with an error code or
returns a value. -/
abbrev MResult (α : Type) : Type := Except ErrorCode α

/-- Rust `opt.ok_or(err)?`. -/
def liftOpt {α : Type} (o : Option α) (e : ErrorCode) : MResult α :=
  match o with
  | some v => .ok v
  | none => .error e

/-- Anchor require! macro: abort with the given error unless the condition
holds. -/
def req (c : Prop) [Decidable c] (e : ErrorCode) : MResult Unit :=
  if c then .ok () else .error e

/-- Fixed-point precision, 10^9 (math/mod.rs). -/
def PRECISION : Nat := 1000000000

/-- ln 2 in 9-decimal fixed point (math/mod.rs, math/lmsr.rs). -/
def LN_2 : Nat := 693147180

/-- Maximum exponent accepted by fixed_exp (math/lmsr.rs). -/
def MAX_EXP : Nat := 20 * PRECISION

/-- Minimum liquidity parameter (math/lmsr.rs). -/
def MIN_B : Nat := 100 * PRECISION

/-- lmsr.rs fixed_mul: (a * b) / PRECISION with a u128 intermediate and a u64
range check on the result. -/
def fixed_mul (a b : Nat) : MResult Nat := do
  let product ← liftOpt (checkedMul128 a b) .OverflowError
  let result ← liftOpt (checkedDiv128 product PRECISION) .DivisionByZero
  let _ ← req (result ≤ U64MAX) .OverflowError
  pure result

/-- lmsr.rs fixed_div: (a * PRECISION) / b with a u128 intermediate and a u64
range check on the result. -/
def fixed_div (a b : Nat) : MResult Nat := do
  let _ ← req (b > 0) .DivisionByZero
  let numerator ← liftOpt (checkedMul128 a PRECISION) .OverflowError
  let result ← liftOpt (checkedDiv128 numerator b) .DivisionByZero
  let _ ← req (result ≤ U64MAX) .OverflowError
  pure result

/-- lmsr.rs fixed_exp: Padé(2,2) rational approximation of e^x. The guard
admits x up to MAX_EXP; the denominator is computed as
((PRECISION - x/2) + x²/12) with a checked subtraction taken first. -/
def fixed_exp (x : Nat) : MResult Nat := do
  let _ ← req (x ≤ MAX_EXP) .ExponentTooLarge
  let x2 ← fixed_mul x x
  let n1 ← liftOpt (checkedAdd64 PRECISION (x / 2)) .OverflowError
  let num ← liftOpt (checkedAdd64 n1 (x2 / 12)) .OverflowError
  let d1 ← liftOpt (checkedSub64 PRECISION (x / 2)) .UnderflowError
  let denom ← liftOpt (checkedAdd64 d1 (x2 / 12)) .OverflowError
  fixed_div num denom

/-- lmsr.rs fixed_exp_negative: e^(-x) = 1 / e^x. -/
def fixed_exp_negative (x : Nat) : MResult Nat := do
  let exp_x ← fixed_exp x
  fixed_div PRECISION exp_x

/-- Range-reduction loop of fixed_ln: halve while x ≥ 2·PRECISION, counting
the halvings. The fuel bounds the iteration count; 64 units of fuel cover
every u64 input, so on the machine-width domain this equals the Rust while
loop. -/
def lnShiftDown : Nat → Nat → Int → Nat × Int
  | 0, x, e => (x, e)
  | fuel + 1, x, e =>
    if x ≥ 2 * PRECISION then lnShiftDown fuel (x / 2) (e + 1) else (x, e)

/-- Range-reduction loop of fixed_ln: double while x < PRECISION / 2, counting
the doublings. 64 units of fuel cover every positive u64 input. -/
def lnShiftUp : Nat → Nat → Int → Nat × Int
  | 0, x, e => (x, e)
  | fuel + 1, x, e =>
    if x < PRECISION / 2 then lnShiftUp fuel (x * 2) (e - 1) else (x, e)

/-- lmsr.rs fixed_ln: Taylor series with power-of-two range reduction. -/
def fixed_ln (x : Nat) : MResult Nat := do
  let _ ← req (x > 0) .InvalidInput
  if x = PRECISION then
    pure 0
  else do
    let (xr, expt) := lnShiftDown 64 x 0
    let (x_reduced, exponent) := lnShiftUp 64 xr expt
    let y ←
      if x_reduced ≥ PRECISION then do
        let num ← liftOpt (checkedSub64 x_reduced PRECISION) .UnderflowError
        let denom ← liftOpt (checkedAdd64 x_reduced PRECISION) .OverflowError
        fixed_div num denom
      else do
        let inv ← fixed_div PRECISION x_reduced
        let num ← liftOpt (checkedSub64 inv PRECISION) .UnderflowError
        let denom ← liftOpt (checkedAdd64 inv PRECISION) .OverflowError
        fixed_div num denom
    let y2 ← fixed_mul y y
    let y3 ← fixed_mul y2 y
    let y5 ← fixed_mul y3 y2
    let s1 ← liftOpt (checkedAdd64 y (y3 / 3)) .OverflowError
    let s2 ← liftOpt (checkedAdd64 s1 (y5 / 5)) .OverflowError
    let series ← liftOpt (checkedMul64 2 s2) .OverflowError
    let adjustment ← liftOpt (checkedMulI128 exponent (LN_2 : Int)) .OverflowError
    if adjustment ≥ 0 then
      liftOpt (checkedAdd64 series (castI128ToU64 adjustment)) .OverflowError
    else
      liftOpt (checkedSub64 series (castI128ToU64 (-adjustment))) .UnderflowError

/-- lmsr.rs log_sum_exp: ln(e^x + e^y) = max(x,y) + ln(1 + e^(-|x-y|)). -/
def log_sum_exp (x y : Nat) : MResult Nat := do
  let md ←
    if x ≥ y then do
      let d ← liftOpt (checkedSub64 x y) .UnderflowError
      pure (x, d)
    else do
      let d ← liftOpt (checkedSub64 y x) .UnderflowError
      pure (y, d)
  let exp_neg_diff ← fixed_exp_negative md.2
  let one_plus_exp ← liftOpt (checkedAdd64 PRECISION exp_neg_diff) .OverflowError
  let ln_term ← fixed_ln one_plus_exp
  liftOpt (checkedAdd64 md.1 ln_term) .OverflowError

/-- lmsr.rs cost_function: C(q_yes, q_no) = b · log_sum_exp(q_yes/b, q_no/b),
requiring b ≥ MIN_B. -/
def cost_function (q_yes q_no b : Nat) : MResult Nat := do
  let _ ← req (b ≥ MIN_B) .InvalidBParameter
  let x ← fixed_div q_yes b
  let y ← fixed_div q_no b
  let log_sum ← log_sum_exp x y
  fixed_mul b log_sum

/-- lmsr.rs calculate_yes_price: softmax price of the YES side, branching on
which side is larger. -/
def calculate_yes_price (q_yes q_no b : Nat) : MResult Nat := do
  let _ ← req (b ≥ MIN_B) .InvalidBParameter
  if q_yes ≥ q_no then do
    let diff ← liftOpt (checkedSub64 q_yes q_no) .UnderflowError
    let r ← fixed_div diff b
    let exp_r ← fixed_exp r
    let denominator ← liftOpt (checkedAdd64 exp_r PRECISION) .OverflowError
    fixed_div exp_r denominator
  else do
    let diff ← liftOpt (checkedSub64 q_no q_yes) .UnderflowError
    let r ← fixed_div diff b
    let exp_r ← fixed_exp r
    let denominator ← liftOpt (checkedAdd64 PRECISION exp_r) .OverflowError
    fixed_div PRECISION denominator

/-- lmsr.rs calculate_no_price: PRECISION minus the YES price, with a checked
subtraction. -/
def calculate_no_price (q_yes q_no b : Nat) : MResult Nat := do
  let yes_price ← calculate_yes_price q_yes q_no b
  let no_price ← liftOpt (checkedSub64 PRECISION yes_price) .UnderflowError
  pure no_price

/-- One iteration step of the binary search loop in lmsr.rs shares_for_cost,
with explicit fuel mirroring `for _ in 0..50`. When the fuel is exhausted the
loop falls through to `Ok(low)` exactly as the Rust for loop does. -/
def sfcLoop (current_q_yes current_q_no b : Nat) (outcome : Bool)
    (target_cost cost_before tolerance : Nat) :
    Nat → Nat → Nat → MResult Nat
  | 0, low, _ => .ok low
  | fuel + 1, low, high => do
    let gap ← liftOpt (checkedSub64 high low) .UnderflowError
    if gap ≤ tolerance then
      .ok low
    else do
      let half ← liftOpt (checkedSub64 high low) .UnderflowError
      let mid ← liftOpt (checkedAdd64 low (half / 2)) .OverflowError
      let qs ←
        if outcome then do
          let ny ← liftOpt (checkedAdd64 current_q_yes mid) .OverflowError
          pure (ny, current_q_no)
        else do
          let nn ← liftOpt (checkedAdd64 current_q_no mid) .OverflowError
          pure (current_q_yes, nn)
      let cost_after ← cost_function qs.1 qs.2 b
      let actual_cost ← liftOpt (checkedSub64 cost_after cost_before) .UnderflowError
      if actual_cost < target_cost then do
        let low' ← liftOpt (checkedAdd64 mid 1) .OverflowError
        sfcLoop current_q_yes current_q_no b outcome target_cost cost_before tolerance fuel low' high
      else if actual_cost > target_cost then
        sfcLoop current_q_yes current_q_no b outcome target_cost cost_before tolerance fuel low mid
      else
        .ok mid

/-- lmsr.rs shares_for_cost: binary search over the share quantity for the
target cost, with `[0, 20·b]` bounds, tolerance PRECISION/1000 and at most 50
iterations. -/
def shares_for_cost (current_q_yes current_q_no b : Nat) (outcome : Bool)
    (target_cost : Nat) : MResult Nat := do
  let cost_before ← cost_function current_q_yes current_q_no b
  let max_safe_shares ← liftOpt (checkedMul64 20 b) .OverflowError
  sfcLoop current_q_yes current_q_no b outcome target_cost cost_before
    (PRECISION / 1000) 50 0 max_safe_shares

/-- lmsr.rs calculate_buy_cost: runs the share search, then recomputes the
actual cost of the found share quantity. -/
def calculate_buy_cost (current_q_yes current_q_no b : Nat) (outcome : Bool)
    (target_cost : Nat) : MResult (Nat × Nat) := do
  let shares ← shares_for_cost current_q_yes current_q_no b outcome target_cost
  let qs ←
    if outcome then do
      let ny ← liftOpt (checkedAdd64 current_q_yes shares) .OverflowError
      pure (ny, current_q_no)
    else do
      let nn ← liftOpt (checkedAdd64 current_q_no shares) .OverflowError
      pure (current_q_yes, nn)
  let cost_before ← cost_function current_q_yes current_q_no b
  let cost_after ← cost_function qs.1 qs.2 b
  let actual_cost ← liftOpt (checkedSub64 cost_after cost_before) .UnderflowError
  pure (actual_cost, shares)

/-- lmsr.rs calculate_sell_proceeds: C(q) - C(q - Δq) with checked share and
cost subtractions. -/
def calculate_sell_proceeds (current_q_yes current_q_no b : Nat) (outcome : Bool)
    (shares_to_sell : Nat) : MResult Nat := do
  let qs ←
    if outcome then do
      let ny ← liftOpt (checkedSub64 current_q_yes shares_to_sell) .InsufficientShares
      pure (ny, current_q_no)
    else do
      let nn ← liftOpt (checkedSub64 current_q_no shares_to_sell) .InsufficientShares
      pure (current_q_yes, nn)
  let cost_before ← cost_function current_q_yes current_q_no b
  let cost_after ← cost_function qs.1 qs.2 b
  let proceeds ← liftOpt (checkedSub64 cost_before cost_after) .UnderflowError
  pure proceeds

/-- bounded_loss.rs calculate_max_loss: b · ln(2) / PRECISION in a u128
intermediate, converted back to u64. -/
def calculate_max_loss (b_parameter : Nat) : MResult Nat := do
  let product ← liftOpt (checkedMul128 b_parameter LN_2) .OverflowError
  let max_loss_wide ← liftOpt (checkedDiv128 product PRECISION) .DivisionByZero
  let _ ← req (max_loss_wide ≤ U64MAX) .OverflowError
  pure max_loss_wide

/-- bounded_loss.rs verify_bounded_loss: the realized loss
max(0, initial - current) must not exceed calculate_max_loss(b). -/
def verify_bounded_loss (initial_liquidity current_liquidity b_parameter : Nat) :
    MResult Unit := do
  let actual_loss :=
    if initial_liquidity > current_liquidity
      then initial_liquidity - current_liquidity else 0
  let max_allowed_loss ← calculate_max_loss b_parameter
  req (actual_loss ≤ max_allowed_loss) .BoundedLossExceeded

/-- utils/fees.rs FeeBreakdown. -/
structure FeeBreakdown where
  protocol_fee : Nat
  resolver_fee : Nat
  lp_fee : Nat
  total_fees : Nat
  deriving DecidableEq

/-- utils/fees.rs calculate_fees_accurate: total-first fee computation with
the LP share taken as the remainder. -/
def calculate_fees_accurate (amount protocol_fee_bps resolver_fee_bps lp_fee_bps : Nat) :
    MResult FeeBreakdown := do
  let t1 ← liftOpt (checkedAdd64 protocol_fee_bps resolver_fee_bps) .OverflowError
  let total_fee_bps ← liftOpt (checkedAdd64 t1 lp_fee_bps) .OverflowError
  let tf1 ← liftOpt (checkedMul64 amount total_fee_bps) .OverflowError
  let total_fees ← liftOpt (checkedDiv64 tf1 10000) .DivisionByZero
  let pf1 ← liftOpt (checkedMul64 total_fees protocol_fee_bps) .OverflowError
  let protocol_fee ← liftOpt (checkedDiv64 pf1 total_fee_bps) .DivisionByZero
  let rf1 ← liftOpt (checkedMul64 total_fees resolver_fee_bps) .OverflowError
  let resolver_fee ← liftOpt (checkedDiv64 rf1 total_fee_bps) .DivisionByZero
  let lp1 ← liftOpt (checkedSub64 total_fees protocol_fee) .UnderflowError
  let lp_fee ← liftOpt (checkedSub64 lp1 resolver_fee) .UnderflowError
  pure { protocol_fee := protocol_fee, resolver_fee := resolver_fee,
         lp_fee := lp_fee, total_fees := total_fees }

/-- state/market.rs MarketState: the 7-state market lifecycle. -/
inductive MarketState where
  | Proposed
  | Approved
  | Active
  | Resolving
  | Disputed
  | Finalized
  | Cancelled
  deriving DecidableEq

/-- state/market.rs MarketAccount. Pubkeys are abstracted to Nat (only
equality is used); the 46-byte IPFS hash is abstracted to a Nat token; the
reserved padding and the PDA bump are omitted as they carry no behavior. -/
structure Market where
  market_id : Nat
  creator : Nat
  state : MarketState
  b_parameter : Nat
  initial_liquidity : Nat
  current_liquidity : Nat
  shares_yes : Nat
  shares_no : Nat
  total_volume : Nat
  created_at : Int
  approved_at : Int
  activated_at : Int
  resolution_proposed_at : Int
  resolved_at : Int
  finalized_at : Int
  resolver : Nat
  proposed_outcome : Option Bool
  final_outcome : Option Bool
  ipfs_evidence_hash : Nat
  dispute_initiated_at : Int
  dispute_initiator : Nat
  accumulated_protocol_fees : Nat
  accumulated_resolver_fees : Nat
  accumulated_lp_fees : Nat
  proposal_likes : Nat
  proposal_dislikes : Nat
  proposal_total_votes : Nat
  resolution_agree : Nat
  resolution_disagree : Nat
  resolution_total_votes : Nat
  dispute_agree : Nat
  dispute_disagree : Nat
  dispute_total_votes : Nat
  was_disputed : Bool
  is_cancelled : Bool
  cancelled_at : Option Int
  deriving DecidableEq

/-- state/global_config.rs GlobalConfig (Pubkeys abstracted to Nat). -/
structure GlobalConfig where
  admin : Nat
  backend_authority : Nat
  protocol_fee_wallet : Nat
  protocol_fee_bps : Nat
  resolver_reward_bps : Nat
  liquidity_provider_fee_bps : Nat
  proposal_approval_threshold : Nat
  dispute_success_threshold : Nat
  min_resolution_delay : Int
  dispute_period : Int
  min_resolver_reputation : Nat
  is_paused : Bool
  deriving DecidableEq

/-- state/market.rs MarketAccount::can_transition_to: the six-edge transition
table. -/
def Market.can_transition_to (m : Market) (new_state : MarketState) : Bool :=
  match m.state, new_state with
  | .Proposed, .Approved => true
  | .Approved, .Active => true
  | .Active, .Resolving => true
  | .Resolving, .Disputed => true
  | .Resolving, .Finalized => true
  | .Disputed, .Finalized => true
  | _, _ => false

/-- Modelled from the spec: `MarketAccount::transition_state` is called by
finalize_market.rs and resolve_market.rs but its definition is not under
src/ (only its callers are). Per spec §4.6 and §9 the transition table is
validated centrally and any other requested transition fails with
InvalidStateTransition, so the wrapper checks can_transition_to and commits
the new state on success. -/
def Market.transition_state (m : Market) (new_state : MarketState) : MResult Market :=
  if m.can_transition_to new_state then .ok { m with state := new_state }
  else .error .InvalidStateTransition

/-- state/market.rs MarketAccount::proposal_approved. -/
def Market.proposal_approved (m : Market) (threshold_bps : Nat) : Bool :=
  if m.proposal_total_votes = 0 then false
  else (m.proposal_likes * 10000) / m.proposal_total_votes ≥ threshold_bps

/-- state/market.rs MarketAccount::dispute_succeeded. -/
def Market.dispute_succeeded (m : Market) (threshold_bps : Nat) : Bool :=
  if m.dispute_total_votes = 0 then false
  else (m.dispute_agree * 10000) / m.dispute_total_votes ≥ threshold_bps

/-- Rust `expr as u16` narrowing cast: wraps modulo 2^16. -/
def castToU16 (a : Nat) : Nat := a % 65536

/-- Rust `expr as u8` narrowing cast: wraps modulo 2^8. -/
def castToU8 (a : Nat) : Nat := a % 256

/-- instructions/aggregate_proposal_votes.rs handler, with the Anchor account
constraints (market in Proposed, signer is the backend authority) checked
first, as Anchor does before entering the body. `sig` is the key of the
backend_authority signer account and `now` the clock timestamp. -/
def aggregate_proposal_votes (cfg : GlobalConfig) (sig : Nat) (m : Market)
    (final_likes final_dislikes : Nat) (now : Int) : MResult Market := do
  let _ ← req (m.state = .Proposed) .InvalidStateForVoting
  let _ ← req (sig = cfg.backend_authority) .Unauthorized
  let _ ← req (sig = cfg.backend_authority) .Unauthorized
  -- the body's second require, backend_authority.is_signer, is enforced by
  -- the Signer account type and carries no condition here
  let m := { m with proposal_likes := final_likes, proposal_dislikes := final_dislikes }
  let total_votes ← liftOpt (checkedAdd32 final_likes final_dislikes) .OverflowError
  let likes_bps ←
    if total_votes > 0 then do
      let p ← liftOpt (checkedMul64 final_likes 10000) .OverflowError
      pure (p / total_votes)
    else
      pure 0
  let approved := likes_bps ≥ cfg.proposal_approval_threshold
  let m :=
    if approved then { m with state := .Approved, approved_at := now } else m
  pure m

/-- instructions/approve_proposal.rs handler, with the Anchor admin constraint
checked first. -/
def approve_proposal (cfg : GlobalConfig) (sig : Nat) (m : Market) (now : Int) :
    MResult Market := do
  let _ ← req (cfg.admin = sig) .Unauthorized
  let _ ← req (m.state = .Proposed) .InvalidStateTransition
  let _ ← req (m.proposal_total_votes > 0) .NoVotesRecorded
  let p ← liftOpt (checkedMul128 m.proposal_likes 10000) .OverflowError
  let q ← liftOpt (checkedDiv128 p m.proposal_total_votes) .DivisionByZero
  let approval_bps := castToU16 q
  let _ ← req (approval_bps ≥ cfg.proposal_approval_threshold) .InsufficientVotes
  pure { m with state := .Approved, approved_at := now }

/-- instructions/activate_market.rs handler. `authority` is the signing key,
accepted when it is the admin or the market creator. -/
def activate_market (cfg : GlobalConfig) (authority : Nat) (m : Market) (now : Int) :
    MResult Market := do
  let _ ← req (authority = cfg.admin ∨ authority = m.creator) .Unauthorized
  let _ ← req (m.state = .Approved) .InvalidStateTransition
  let _ ← req (m.current_liquidity ≥ m.initial_liquidity) .InsufficientLiquidity
  pure { m with state := .Active, activated_at := now }

/-- instructions/resolve_market.rs handler, with the Anchor state constraint
(market Active) checked first. -/
def resolve_market (m : Market) (proposed_outcome : Bool) (evidence : Nat)
    (resolver_key : Nat) (now : Int) : MResult Market := do
  let _ ← req (m.state = .Active) .InvalidMarketState
  let _ ← req (m.proposed_outcome = none) .AlreadyResolved
  let _ ← req (now ≥ m.created_at) .InvalidTimestamp
  let max_timestamp ← liftOpt (checkedAddI64 m.created_at (86400 * 365 * 10)) .OverflowError
  let _ ← req (now ≤ max_timestamp) .InvalidTimestamp
  let _ ← req (now > m.activated_at) .InvalidTimestamp
  let m := { m with
    proposed_outcome := some proposed_outcome,
    resolver := resolver_key,
    ipfs_evidence_hash := evidence,
    resolution_proposed_at := now,
    resolution_agree := 0,
    resolution_disagree := 0,
    resolution_total_votes := 0 }
  m.transition_state .Resolving

/-- instructions/initiate_dispute.rs handler, with the Anchor state constraint
(market Resolving) checked first. -/
def initiate_dispute (cfg : GlobalConfig) (m : Market) (initiator : Nat) (now : Int) :
    MResult Market := do
  let _ ← req (m.state = .Resolving) .InvalidMarketState
  let _ ← req (now > m.resolution_proposed_at) .InvalidTimestamp
  let dispute_deadline ←
    liftOpt (checkedAddI64 m.resolution_proposed_at cfg.dispute_period) .OverflowError
  let _ ← req (now < dispute_deadline) .DisputePeriodEnded
  let _ ← req (m.state = .Resolving) .AlreadyDisputed
  pure { m with
    dispute_initiator := initiator,
    dispute_initiated_at := now,
    dispute_agree := 0,
    dispute_disagree := 0,
    dispute_total_votes := 0,
    state := .Disputed }

/-- instructions/finalize_market.rs handler, with the Anchor constraints
(market Resolving or Disputed, signer is the backend authority) checked
first. -/
def finalize_market (cfg : GlobalConfig) (sig : Nat) (m : Market)
    (dispute_agree dispute_disagree : Option Nat) (now : Int) : MResult Market := do
  let _ ← req (m.state = .Resolving ∨ m.state = .Disputed) .InvalidMarketState
  let _ ← req (sig = cfg.backend_authority) .Unauthorized
  let _ ← req (now ≥ m.created_at) .InvalidTimestamp
  let max_timestamp ← liftOpt (checkedAddI64 m.created_at (86400 * 365 * 10)) .OverflowError
  let _ ← req (now ≤ max_timestamp) .InvalidTimestamp
  let _ ← req (now > m.resolution_proposed_at) .InvalidTimestamp
  let was_disputed := m.state = .Disputed
  let r ←
    if m.state = .Disputed then do
      let agree ← liftOpt dispute_agree .NoVotesRecorded
      let disagree ← liftOpt dispute_disagree .NoVotesRecorded
      let total ← liftOpt (checkedAdd32 agree disagree) .OverflowError
      let _ ← req (total > 0) .NoVotesRecorded
      let m := { m with dispute_agree := agree, dispute_disagree := disagree,
                        dispute_total_votes := total }
      let a1 ← liftOpt (checkedMul64 agree 10000) .OverflowError
      let agree_rate_bps ← liftOpt (checkedDiv64 a1 total) .DivisionByZero
      let fo :=
        if agree_rate_bps ≥ cfg.dispute_success_threshold then
          match m.proposed_outcome with
          | some true => some false
          | some false => some true
          | none => none
        else m.proposed_outcome
      pure (m, fo)
    else do
      let dispute_deadline ←
        liftOpt (checkedAddI64 m.resolution_proposed_at cfg.dispute_period) .OverflowError
      let _ ← req (now ≥ dispute_deadline) .DisputePeriodNotEnded
      pure (m, m.proposed_outcome)
  let _ ← verify_bounded_loss r.1.initial_liquidity r.1.current_liquidity r.1.b_parameter
  let m := { r.1 with final_outcome := r.2, was_disputed := was_disputed,
                      finalized_at := now }
  m.transition_state .Finalized

/-- instructions/aggregate_dispute_votes.rs handler, with the Anchor
constraints (market Disputed, signer is the backend authority) checked
first. -/
def aggregate_dispute_votes (cfg : GlobalConfig) (sig : Nat) (m : Market)
    (final_agrees final_disagrees : Nat) (now : Int) : MResult Market := do
  let _ ← req (m.state = .Disputed) .InvalidStateForVoting
  let _ ← req (sig = cfg.backend_authority) .Unauthorized
  let m := { m with dispute_agree := final_agrees, dispute_disagree := final_disagrees }
  let total_votes ← liftOpt (checkedAdd32 final_agrees final_disagrees) .OverflowError
  let m := { m with dispute_total_votes := total_votes }
  let dispute_succeeded := m.dispute_succeeded cfg.dispute_success_threshold
  let _agreement_percentage ←
    if total_votes > 0 then do
      let a1 ← liftOpt (checkedMul64 final_agrees 100) .OverflowError
      pure (castToU8 (a1 / total_votes))
    else
      pure 0
  let m :=
    if dispute_succeeded then
      { m with state := .Resolving, was_disputed := true }
    else
      { m with state := .Finalized, resolved_at := now, was_disputed := true }
  pure m

/-- instructions/cancel_market.rs handler, with the Anchor admin constraint
checked first. -/
def cancel_market (cfg : GlobalConfig) (sig : Nat) (m : Market) (now : Int) :
    MResult Market := do
  let _ ← req (cfg.admin = sig) .Unauthorized
  let _ ← req (¬ m.state = .Cancelled) .MarketAlreadyCancelled
  let _ ← req (m.state = .Proposed ∨ m.state = .Approved) .CannotCancelMarket
  pure { m with state := .Cancelled, cancelled_at := some now }

/-- One invocation of a market-state-writing instruction of the core, with
its caller-supplied arguments. The trading, claim and withdrawal
instructions never assign market.state and are not state transitions. -/
inductive Op where
  | aggregateProposalVotes (cfg : GlobalConfig) (sig : Nat)
      (final_likes final_dislikes : Nat) (now : Int)
  | approveProposal (cfg : GlobalConfig) (sig : Nat) (now : Int)
  | activateMarket (cfg : GlobalConfig) (authority : Nat) (now : Int)
  | resolveMarket (proposed_outcome : Bool) (evidence resolver_key : Nat) (now : Int)
  | initiateDispute (cfg : GlobalConfig) (initiator : Nat) (now : Int)
  | finalizeMarket (cfg : GlobalConfig) (sig : Nat)
      (dispute_agree dispute_disagree : Option Nat) (now : Int)
  | aggregateDisputeVotes (cfg : GlobalConfig) (sig : Nat)
      (final_agrees final_disagrees : Nat) (now : Int)
  | cancelMarket (cfg : GlobalConfig) (sig : Nat) (now : Int)

/-- Dispatch an operation to its handler. -/
def step (op : Op) (m : Market) : MResult Market :=
  match op with
  | .aggregateProposalVotes cfg sig l d now => aggregate_proposal_votes cfg sig m l d now
  | .approveProposal cfg sig now => approve_proposal cfg sig m now
  | .activateMarket cfg a now => activate_market cfg a m now
  | .resolveMarket po ev rk now => resolve_market m po ev rk now
  | .initiateDispute cfg i now => initiate_dispute cfg m i now
  | .finalizeMarket cfg sig da dd now => finalize_market cfg sig m da dd now
  | .aggregateDisputeVotes cfg sig a d now => aggregate_dispute_votes cfg sig m a d now
  | .cancelMarket cfg sig now => cancel_market cfg sig m now

/-- buy_shares.rs MIN_TRADE_AMOUNT: minimum trade size in lamports. -/
def MIN_TRADE_AMOUNT : Nat := 10000

section Helpers

/-- Successful bind in the Anchor result monad decomposes into a successful
first component. -/
theorem bind_ok {α β : Type} {x : MResult α} {f : α → MResult β} {v : β}
    (h : (x >>= f) = .ok v) : ∃ a, x = .ok a ∧ f a = .ok v := by
  cases x with
  | ok a => exact ⟨a, rfl, h⟩
  | error e => simp [Bind.bind, Except.bind] at h

/-- A successful require! means its condition held. -/
theorem req_ok {c : Prop} [Decidable c] {e : ErrorCode} {u : Unit}
    (h : req c e = .ok u) : c := by
  by_cases hc : c
  · exact hc
  · simp [req, hc] at h

/-- A successful option lift yields the wrapped value. -/
theorem liftOpt_ok {α : Type} {o : Option α} {e : ErrorCode} {v : α}
    (h : liftOpt o e = .ok v) : o = some v := by
  cases o with
  | some a => simpa [liftOpt] using h
  | none => simp [liftOpt] at h

theorem checkedAdd64_some {a b v : Nat} (h : checkedAdd64 a b = some v) :
    v = a + b ∧ a + b ≤ U64MAX := by
  by_cases hle : a + b ≤ U64MAX
  · simp [checkedAdd64, hle] at h
    exact ⟨h.symm, hle⟩
  · simp [checkedAdd64, hle] at h

theorem checkedSub64_some {a b v : Nat} (h : checkedSub64 a b = some v) :
    v = a - b ∧ b ≤ a := by
  by_cases hle : b ≤ a
  · simp [checkedSub64, hle] at h
    exact ⟨h.symm, hle⟩
  · simp [checkedSub64, hle] at h

theorem checkedMul64_some {a b v : Nat} (h : checkedMul64 a b = some v) :
    v = a * b ∧ a * b ≤ U64MAX := by
  by_cases hle : a * b ≤ U64MAX
  · simp [checkedMul64, hle] at h
    exact ⟨h.symm, hle⟩
  · simp [checkedMul64, hle] at h

theorem checkedDiv64_some {a b v : Nat} (h : checkedDiv64 a b = some v) :
    v = a / b ∧ b ≠ 0 := by
  by_cases hb : b = 0
  · simp [checkedDiv64, hb] at h
  · simp [checkedDiv64, hb] at h
    exact ⟨h.symm, hb⟩

theorem checkedMul128_some {a b v : Nat} (h : checkedMul128 a b = some v) :
    v = a * b ∧ a * b ≤ U128MAX := by
  by_cases hle : a * b ≤ U128MAX
  · simp [checkedMul128, hle] at h
    exact ⟨h.symm, hle⟩
  · simp [checkedMul128, hle] at h

theorem checkedDiv128_some {a b v : Nat} (h : checkedDiv128 a b = some v) :
    v = a / b ∧ b ≠ 0 := by
  by_cases hb : b = 0
  · simp [checkedDiv128, hb] at h
  · simp [checkedDiv128, hb] at h
    exact ⟨h.symm, hb⟩

theorem checkedAdd32_some {a b v : Nat} (h : checkedAdd32 a b = some v) :
    v = a + b ∧ a + b ≤ U32MAX := by
  by_cases hle : a + b ≤ U32MAX
  · simp [checkedAdd32, hle] at h
    exact ⟨h.symm, hle⟩
  · simp [checkedAdd32, hle] at h

/-- Pure return in the Anchor result monad. -/
theorem pure_ok {α : Type} {a v : α} (h : (pure a : MResult α) = .ok v) : a = v := by
  simpa [pure, Except.pure] using h

/-- A successful fixed_div is the floor of a·PRECISION / b with positive b. -/
theorem fixed_div_ok {a b v : Nat} (h : fixed_div a b = .ok v) :
    0 < b ∧ v = a * PRECISION / b := by
  unfold fixed_div at h
  obtain ⟨u, hreq, h⟩ := bind_ok h
  have hb : b > 0 := req_ok hreq
  obtain ⟨n, hn, h⟩ := bind_ok h
  obtain ⟨hneq, -⟩ := checkedMul128_some (liftOpt_ok hn)
  obtain ⟨r, hr, h⟩ := bind_ok h
  obtain ⟨hreq2, -⟩ := checkedDiv128_some (liftOpt_ok hr)
  obtain ⟨u2, -, h⟩ := bind_ok h
  have hrv := pure_ok h
  exact ⟨hb, by rw [← hrv, hreq2, hneq]⟩

/-- A successful fixed_exp result is at least PRECISION, because the Padé
numerator dominates the denominator. -/
theorem fixed_exp_ok_ge {x e : Nat} (h : fixed_exp x = .ok e) : PRECISION ≤ e := by
  unfold fixed_exp at h
  obtain ⟨u, hreq, h⟩ := bind_ok h
  obtain ⟨x2, hx2, h⟩ := bind_ok h
  obtain ⟨n1, hn1, h⟩ := bind_ok h
  obtain ⟨num, hnum, h⟩ := bind_ok h
  obtain ⟨d1, hd1, h⟩ := bind_ok h
  obtain ⟨denom, hden, h⟩ := bind_ok h
  obtain ⟨hdenpos, hev⟩ := fixed_div_ok h
  obtain ⟨hn1v, -⟩ := checkedAdd64_some (liftOpt_ok hn1)
  obtain ⟨hnumv, -⟩ := checkedAdd64_some (liftOpt_ok hnum)
  obtain ⟨hd1v, hd1le⟩ := checkedSub64_some (liftOpt_ok hd1)
  obtain ⟨hdenv, -⟩ := checkedAdd64_some (liftOpt_ok hden)
  have hdn : denom ≤ num := by omega
  subst hev
  have hmul : PRECISION * denom ≤ num * PRECISION := by
    calc PRECISION * denom = denom * PRECISION := Nat.mul_comm _ _
    _ ≤ num * PRECISION := Nat.mul_le_mul_right _ hdn
  exact (Nat.le_div_iff_mul_le hdenpos).mpr hmul

end Helpers

/-- C1: fixed_exp does not cover its documented/claimed domain
0 ≤ x ≤ MAX_EXP: at x = 3·PRECISION (well inside the domain) the checked
subtraction PRECISION - x/2 underflows, so instead of the Padé(2,2) value
the function aborts with UnderflowError (and not with ExponentTooLarge).
The usable domain in fact ends at 2·PRECISION+1: the next input already
underflows, and ExponentTooLarge only appears past MAX_EXP. -/
theorem C1_fixed_exp_underflows_inside_claimed_domain :
    3 * PRECISION ≤ MAX_EXP ∧
    fixed_exp (3 * PRECISION) = .error .UnderflowError ∧
    fixed_exp (2 * PRECISION + 1) = .ok 7000000006 ∧
    fixed_exp (2 * PRECISION + 2) = .error .UnderflowError ∧
    fixed_exp MAX_EXP = .error .UnderflowError ∧
    fixed_exp (MAX_EXP + 1) = .error .ExponentTooLarge :=
  ⟨by decide, rfl, rfl, rfl, rfl, rfl⟩

/-- Auxiliary to C4: for every machine-width b, calculate_max_loss returns
exactly b · LN_2 / PRECISION, rounded down. -/
theorem calculate_max_loss_ok (b : Nat) (hb : b ≤ U64MAX) :
    calculate_max_loss b = .ok (b * LN_2 / PRECISION) := by
  have h1 : b * LN_2 ≤ U128MAX := by
    calc b * LN_2 ≤ U64MAX * LN_2 := Nat.mul_le_mul_right _ hb
    _ ≤ U128MAX := by decide
  have h2 : b * LN_2 / PRECISION ≤ U64MAX := by
    calc b * LN_2 / PRECISION ≤ b * PRECISION / PRECISION :=
      Nat.div_le_div_right (Nat.mul_le_mul_left _ (by decide))
    _ = b := Nat.mul_div_cancel b (by decide)
    _ ≤ U64MAX := hb
  have e1 : checkedMul128 b LN_2 = some (b * LN_2) := by
    simp [checkedMul128, h1]
  have e2 : checkedDiv128 (b * LN_2) PRECISION = some (b * LN_2 / PRECISION) := by
    simp [checkedDiv128, PRECISION]
  simp [calculate_max_loss, bind, Except.bind, liftOpt, req, e1, e2, h2,
    pure, Except.pure]

/-- Auxiliary to C4: verify_bounded_loss succeeds or fails with
BoundedLossExceeded exactly on the loss comparison against
b · LN_2 / PRECISION. -/
theorem verify_bounded_loss_eq (init cur b : Nat) (hb : b ≤ U64MAX) :
    verify_bounded_loss init cur b =
      (if init - cur ≤ b * LN_2 / PRECISION then .ok ()
        else .error .BoundedLossExceeded) := by
  unfold verify_bounded_loss
  rw [calculate_max_loss_ok b hb]
  have hloss : (if init > cur then init - cur else 0) = init - cur := by
    split <;> omega
  simp only [bind, Except.bind, hloss, req]

/-- C4: for every machine-width input, verify_bounded_loss fails with
BoundedLossExceeded exactly when the realized loss max(0, initial - current)
exceeds calculate_max_loss(b) = b · 693147180 / 10^9 rounded down; in
particular calculate_max_loss(1000·PRECISION) = 693147180000, and a loss
exactly equal to the bound passes. -/
theorem C4_verify_bounded_loss (init cur b : Nat) (hb : b ≤ U64MAX) :
    (verify_bounded_loss init cur b = .error .BoundedLossExceeded ↔
      init - cur > b * LN_2 / PRECISION) ∧
    (verify_bounded_loss init cur b = .ok () ↔
      init - cur ≤ b * LN_2 / PRECISION) ∧
    calculate_max_loss (1000 * PRECISION) = .ok 693147180000 ∧
    verify_bounded_loss (1000 * PRECISION) (1000 * PRECISION - 693147180000)
      (1000 * PRECISION) = .ok () := by
  have hch := verify_bounded_loss_eq init cur b hb
  refine ⟨?_, ?_, rfl, rfl⟩
  · rw [hch]
    by_cases hc : init - cur ≤ b * LN_2 / PRECISION
    · rw [if_pos hc]
      constructor
      · intro he
        exact absurd he (by simp)
      · intro hgt
        omega
    · rw [if_neg hc]
      constructor
      · intro _
        omega
      · intro _
        rfl
  · rw [hch]
    by_cases hc : init - cur ≤ b * LN_2 / PRECISION
    · rw [if_pos hc]
      constructor
      · intro _
        exact hc
      · intro _
        rfl
    · rw [if_neg hc]
      constructor
      · intro he
        exact absurd he (by simp)
      · intro hle
        exact absurd hle hc

/-- Witness for C4: a 70-SOL loss at b = MIN_B exceeds the 69.31-SOL bound
and is rejected. -/
theorem C4_verify_bounded_loss_witness :
    verify_bounded_loss (70 * PRECISION) 0 MIN_B = .error .BoundedLossExceeded :=
  (C4_verify_bounded_loss (70 * PRECISION) 0 MIN_B (by decide)).1.mpr (by decide)

/-- C2: whenever calculate_yes_price succeeds (which forces b ≥ MIN_B), the
price is at most PRECISION, calculate_no_price succeeds with exactly
PRECISION minus the YES price, and the two prices sum bit-for-bit to
PRECISION. -/
theorem C2_price_complement (q_yes q_no b p : Nat)
    (h : calculate_yes_price q_yes q_no b = .ok p) :
    MIN_B ≤ b ∧ p ≤ PRECISION ∧
    calculate_no_price q_yes q_no b = .ok (PRECISION - p) ∧
    p + (PRECISION - p) = PRECISION := by
  have hcopy := h
  unfold calculate_yes_price at h
  obtain ⟨u, hreq, h⟩ := bind_ok h
  have hb : b ≥ MIN_B := req_ok hreq
  have hple : p ≤ PRECISION := by
    by_cases hqq : q_yes ≥ q_no
    · rw [if_pos hqq] at h
      obtain ⟨diff, -, h⟩ := bind_ok h
      obtain ⟨r, -, h⟩ := bind_ok h
      obtain ⟨er, her, h⟩ := bind_ok h
      obtain ⟨denom, hden, h⟩ := bind_ok h
      obtain ⟨hdenv, -⟩ := checkedAdd64_some (liftOpt_ok hden)
      obtain ⟨hdpos, hev⟩ := fixed_div_ok h
      subst hdenv
      subst hev
      calc er * PRECISION / (er + PRECISION)
          ≤ (er + PRECISION) * PRECISION / (er + PRECISION) :=
        Nat.div_le_div_right (Nat.mul_le_mul_right _ (Nat.le_add_right _ _))
      _ = PRECISION := Nat.mul_div_cancel_left PRECISION hdpos
    · rw [if_neg hqq] at h
      obtain ⟨diff, -, h⟩ := bind_ok h
      obtain ⟨r, -, h⟩ := bind_ok h
      obtain ⟨er, her, h⟩ := bind_ok h
      obtain ⟨denom, hden, h⟩ := bind_ok h
      obtain ⟨hdenv, -⟩ := checkedAdd64_some (liftOpt_ok hden)
      obtain ⟨hdpos, hev⟩ := fixed_div_ok h
      subst hdenv
      subst hev
      calc PRECISION * PRECISION / (PRECISION + er)
          ≤ PRECISION * PRECISION / PRECISION :=
        Nat.div_le_div_left (Nat.le_add_right _ _) (by decide)
      _ = PRECISION := Nat.mul_div_cancel PRECISION (by decide)
  refine ⟨hb, hple, ?_, by omega⟩
  unfold calculate_no_price
  rw [hcopy]
  simp [bind, Except.bind, liftOpt, checkedSub64, hple, pure, Except.pure]

/-- Witness for C2: at the empty market with b = MIN_B the YES price is
exactly one half and the complement identity holds. -/
theorem C2_price_complement_witness :
    MIN_B ≤ MIN_B ∧ 500000000 ≤ PRECISION ∧
    calculate_no_price 0 0 MIN_B = .ok (PRECISION - 500000000) ∧
    500000000 + (PRECISION - 500000000) = PRECISION :=
  C2_price_complement 0 0 MIN_B 500000000 rfl

/-- C3 counterexample: with the all-zero fee-rate triple (admitted by the
config validator, which only bounds the total above) calculate_fees_accurate
returns DivisionByZero instead of a fee breakdown, because the proportional
split divides by the total rate. -/
theorem C3_counterexample :
    calculate_fees_accurate 100 0 0 0 = .error .DivisionByZero := rfl

/-- C3 amended: whenever calculate_fees_accurate returns a breakdown, the
three components sum exactly to total_fees, and total_fees is
amount · (protocol + resolver + lp) / 10000 computed in one division. -/
theorem C3_fees_sum_exact (amount pb rb lb : Nat) (fb : FeeBreakdown)
    (h : calculate_fees_accurate amount pb rb lb = .ok fb) :
    fb.protocol_fee + fb.resolver_fee + fb.lp_fee = fb.total_fees ∧
    fb.total_fees = amount * (pb + rb + lb) / 10000 := by
  unfold calculate_fees_accurate at h
  obtain ⟨t1, ht1, h⟩ := bind_ok h
  obtain ⟨tb, htb, h⟩ := bind_ok h
  obtain ⟨tf1, htf1, h⟩ := bind_ok h
  obtain ⟨tf, htf, h⟩ := bind_ok h
  obtain ⟨p1, hp1, h⟩ := bind_ok h
  obtain ⟨pf, hpf, h⟩ := bind_ok h
  obtain ⟨r1, hr1, h⟩ := bind_ok h
  obtain ⟨rf, hrf, h⟩ := bind_ok h
  obtain ⟨l1, hl1, h⟩ := bind_ok h
  obtain ⟨lf, hlf, h⟩ := bind_ok h
  have hfb := pure_ok h
  obtain ⟨ht1v, -⟩ := checkedAdd64_some (liftOpt_ok ht1)
  obtain ⟨htbv, -⟩ := checkedAdd64_some (liftOpt_ok htb)
  obtain ⟨htf1v, -⟩ := checkedMul64_some (liftOpt_ok htf1)
  obtain ⟨htfv, -⟩ := checkedDiv64_some (liftOpt_ok htf)
  obtain ⟨hl1v, hl1le⟩ := checkedSub64_some (liftOpt_ok hl1)
  obtain ⟨hlfv, hlfle⟩ := checkedSub64_some (liftOpt_ok hlf)
  subst hfb
  constructor
  · show pf + rf + lf = tf
    omega
  · show tf = amount * (pb + rb + lb) / 10000
    rw [htfv, htf1v, htbv, ht1v]

/-- Witness for C3 amended: amount 99 with rates 300/200/500 bps yields
total_fees 9 split as 2 + 1 + 6. -/
theorem C3_fees_sum_exact_witness :
    (2 : Nat) + 1 + 6 = 9 ∧ (9 : Nat) = 99 * (300 + 200 + 500) / 10000 :=
  C3_fees_sum_exact 99 300 200 500
    { protocol_fee := 2, resolver_fee := 1, lp_fee := 6, total_fees := 9 } rfl

/-- C9 counterexample: at (q_yes, q_no, b) = (363318099, 0, MIN_B) buying a
single share unit strictly DECREASES calculate_yes_price (rounding in the
Padé quotient is not monotone), refuting the strict price increase; and
selling 5·PRECISION shares back right after buying them returns exactly the
buy cost cost(q+Δq) − cost(q), refuting the strictly-smaller-proceeds
policy. -/
theorem C9_counterexample :
    calculate_yes_price 363318099 0 MIN_B = .ok 500908294 ∧
    calculate_yes_price (363318099 + 1) 0 MIN_B = .ok 500908293 ∧
    cost_function (10 * PRECISION) 0 MIN_B = .ok 74430870000 ∧
    cost_function (10 * PRECISION + 5 * PRECISION) 0 MIN_B = .ok 77088847400 ∧
    calculate_sell_proceeds (10 * PRECISION + 5 * PRECISION) 0 MIN_B true
      (5 * PRECISION) = .ok (77088847400 - 74430870000) :=
  ⟨rfl, rfl, rfl, rfl, rfl⟩

/-- C9 amended: whenever the cost function succeeds before and after buying
dq YES shares, selling the dq shares back returns exactly the buy cost
cost(q+dq) − cost(q): the round trip loses nothing but also gains nothing,
so proceeds ≤ cost holds with equality and never strictly. -/
theorem C9_sell_equals_buy (q_yes q_no b dq c1 c2 : Nat)
    (h1 : cost_function q_yes q_no b = .ok c1)
    (h2 : cost_function (q_yes + dq) q_no b = .ok c2)
    (hle : c1 ≤ c2) :
    calculate_sell_proceeds (q_yes + dq) q_no b true dq = .ok (c2 - c1) := by
  unfold calculate_sell_proceeds
  have hsub : checkedSub64 (q_yes + dq) dq = some q_yes := by
    simp [checkedSub64]
  have hsub2 : checkedSub64 c2 c1 = some (c2 - c1) := by
    simp [checkedSub64, hle]
  simp [bind, Except.bind, liftOpt, hsub, h1, h2, hsub2, pure, Except.pure]

/-- Witness for C9 amended: buying and selling back 5·PRECISION YES shares at
(10·PRECISION, 0, MIN_B) both move 2657977400 lamports. -/
theorem C9_sell_equals_buy_witness :
    calculate_sell_proceeds (10 * PRECISION + 5 * PRECISION) 0 MIN_B true
      (5 * PRECISION) = .ok (77088847400 - 74430870000) :=
  C9_sell_equals_buy (10 * PRECISION) 0 MIN_B (5 * PRECISION)
    74430870000 77088847400 rfl rfl (by decide)

section StateLemmas

/-- A successful transition_state commits exactly the requested state and
implies the transition table admitted it. -/
theorem transition_state_ok {m : Market} {s : MarketState} {m' : Market}
    (h : m.transition_state s = .ok m') :
    m'.state = s ∧ m.can_transition_to s = true := by
  unfold Market.transition_state at h
  split at h
  · next hc =>
    simp only [Except.ok.injEq] at h
    subst h
    exact ⟨rfl, hc⟩
  · next hc =>
    simp at h

/-- State effect of aggregate_proposal_votes: runs only on Proposed markets
and leaves them Proposed or Approved. -/
theorem aggregate_proposal_votes_state {cfg : GlobalConfig} {sig : Nat} {m : Market}
    {l d : Nat} {now : Int} {m' : Market}
    (h : aggregate_proposal_votes cfg sig m l d now = .ok m') :
    m.state = .Proposed ∧ (m'.state = .Proposed ∨ m'.state = .Approved) := by
  unfold aggregate_proposal_votes at h
  obtain ⟨u1, hreq1, h⟩ := bind_ok h
  have hst : m.state = .Proposed := req_ok hreq1
  obtain ⟨u2, -, h⟩ := bind_ok h
  obtain ⟨u3, -, h⟩ := bind_ok h
  obtain ⟨total, htot, h⟩ := bind_ok h
  simp only [] at h
  refine ⟨hst, ?_⟩
  by_cases htp : total > 0
  · rw [if_pos htp] at h
    obtain ⟨p, hp, h⟩ := bind_ok h
    obtain ⟨y, hy, h⟩ := bind_ok h
    have hm' := pure_ok h
    by_cases hge : y ≥ cfg.proposal_approval_threshold
    · rw [if_pos hge] at hm'
      subst hm'
      right
      rfl
    · rw [if_neg hge] at hm'
      subst hm'
      left
      exact hst
  · rw [if_neg htp] at h
    obtain ⟨y, hy, h⟩ := bind_ok h
    have hm' := pure_ok h
    by_cases hge : y ≥ cfg.proposal_approval_threshold
    · rw [if_pos hge] at hm'
      subst hm'
      right
      rfl
    · rw [if_neg hge] at hm'
      subst hm'
      left
      exact hst

/-- State effect of approve_proposal: Proposed to Approved. -/
theorem approve_proposal_state {cfg : GlobalConfig} {sig : Nat} {m : Market}
    {now : Int} {m' : Market}
    (h : approve_proposal cfg sig m now = .ok m') :
    m.state = .Proposed ∧ m'.state = .Approved := by
  unfold approve_proposal at h
  obtain ⟨u1, -, h⟩ := bind_ok h
  obtain ⟨u2, hreq2, h⟩ := bind_ok h
  have hst : m.state = .Proposed := req_ok hreq2
  obtain ⟨u3, -, h⟩ := bind_ok h
  obtain ⟨p, -, h⟩ := bind_ok h
  obtain ⟨q, -, h⟩ := bind_ok h
  obtain ⟨u4, -, h⟩ := bind_ok h
  have hm' := pure_ok h
  subst hm'
  exact ⟨hst, rfl⟩

/-- State effect of activate_market: Approved to Active. -/
theorem activate_market_state {cfg : GlobalConfig} {authority : Nat} {m : Market}
    {now : Int} {m' : Market}
    (h : activate_market cfg authority m now = .ok m') :
    m.state = .Approved ∧ m'.state = .Active := by
  unfold activate_market at h
  obtain ⟨u1, -, h⟩ := bind_ok h
  obtain ⟨u2, hreq2, h⟩ := bind_ok h
  have hst : m.state = .Approved := req_ok hreq2
  obtain ⟨u3, -, h⟩ := bind_ok h
  have hm' := pure_ok h
  subst hm'
  exact ⟨hst, rfl⟩

/-- State effect of resolve_market: Active to Resolving. -/
theorem resolve_market_state {m : Market} {po : Bool} {ev rk : Nat}
    {now : Int} {m' : Market}
    (h : resolve_market m po ev rk now = .ok m') :
    m.state = .Active ∧ m'.state = .Resolving := by
  unfold resolve_market at h
  obtain ⟨u1, hreq1, h⟩ := bind_ok h
  have hst : m.state = .Active := req_ok hreq1
  obtain ⟨u2, -, h⟩ := bind_ok h
  obtain ⟨u3, -, h⟩ := bind_ok h
  obtain ⟨mt, -, h⟩ := bind_ok h
  obtain ⟨u4, -, h⟩ := bind_ok h
  obtain ⟨u5, -, h⟩ := bind_ok h
  exact ⟨hst, (transition_state_ok h).1⟩

/-- State effect of initiate_dispute: Resolving to Disputed. -/
theorem initiate_dispute_state {cfg : GlobalConfig} {m : Market} {i : Nat}
    {now : Int} {m' : Market}
    (h : initiate_dispute cfg m i now = .ok m') :
    m.state = .Resolving ∧ m'.state = .Disputed := by
  unfold initiate_dispute at h
  obtain ⟨u1, hreq1, h⟩ := bind_ok h
  have hst : m.state = .Resolving := req_ok hreq1
  obtain ⟨u2, -, h⟩ := bind_ok h
  obtain ⟨dl, -, h⟩ := bind_ok h
  obtain ⟨u3, -, h⟩ := bind_ok h
  obtain ⟨u4, -, h⟩ := bind_ok h
  have hm' := pure_ok h
  subst hm'
  exact ⟨hst, rfl⟩

/-- State effect of finalize_market: from Resolving or Disputed to Finalized,
and the bounded-loss verifier ran successfully on the market's liquidity
figures before the commit. -/
theorem finalize_market_state {cfg : GlobalConfig} {sig : Nat} {m : Market}
    {da dd : Option Nat} {now : Int} {m' : Market}
    (h : finalize_market cfg sig m da dd now = .ok m') :
    (m.state = .Resolving ∨ m.state = .Disputed) ∧ m'.state = .Finalized ∧
    verify_bounded_loss m.initial_liquidity m.current_liquidity m.b_parameter =
      .ok () := by
  unfold finalize_market at h
  obtain ⟨u1, hreq1, h⟩ := bind_ok h
  have hst : m.state = .Resolving ∨ m.state = .Disputed := req_ok hreq1
  obtain ⟨u2, -, h⟩ := bind_ok h
  obtain ⟨u3, -, h⟩ := bind_ok h
  obtain ⟨mt, -, h⟩ := bind_ok h
  obtain ⟨u4, -, h⟩ := bind_ok h
  obtain ⟨u5, -, h⟩ := bind_ok h
  simp only [] at h
  by_cases hd : m.state = .Disputed
  · rw [if_pos hd] at h
    obtain ⟨agree, -, h⟩ := bind_ok h
    obtain ⟨disagree, -, h⟩ := bind_ok h
    obtain ⟨total, -, h⟩ := bind_ok h
    obtain ⟨u6, -, h⟩ := bind_ok h
    obtain ⟨a1, -, h⟩ := bind_ok h
    obtain ⟨rate, -, h⟩ := bind_ok h
    obtain ⟨r, hr, h⟩ := bind_ok h
    obtain ⟨u7, hver, h⟩ := bind_ok h
    have hts := (transition_state_ok h).1
    have hrv := pure_ok hr
    subst hrv
    exact ⟨hst, hts, hver⟩
  · rw [if_neg hd] at h
    obtain ⟨dl, -, h⟩ := bind_ok h
    obtain ⟨u6, -, h⟩ := bind_ok h
    obtain ⟨r, hr, h⟩ := bind_ok h
    obtain ⟨u7, hver, h⟩ := bind_ok h
    have hts := (transition_state_ok h).1
    have hrv := pure_ok hr
    subst hrv
    exact ⟨hst, hts, hver⟩

/-- State effect of aggregate_dispute_votes: from Disputed to Resolving (when
the dispute succeeded) or Finalized (when it failed), written directly. -/
theorem aggregate_dispute_votes_state {cfg : GlobalConfig} {sig : Nat} {m : Market}
    {a d : Nat} {now : Int} {m' : Market}
    (h : aggregate_dispute_votes cfg sig m a d now = .ok m') :
    m.state = .Disputed ∧ (m'.state = .Resolving ∨ m'.state = .Finalized) := by
  unfold aggregate_dispute_votes at h
  obtain ⟨u1, hreq1, h⟩ := bind_ok h
  have hst : m.state = .Disputed := req_ok hreq1
  obtain ⟨u2, -, h⟩ := bind_ok h
  obtain ⟨total, -, h⟩ := bind_ok h
  simp only [] at h
  refine ⟨hst, ?_⟩
  by_cases htp : total > 0
  · rw [if_pos htp] at h
    obtain ⟨a1, -, h⟩ := bind_ok h
    obtain ⟨pct, -, h⟩ := bind_ok h
    have hm' := pure_ok h
    split at hm'
    · subst hm'
      left
      rfl
    · subst hm'
      right
      rfl
  · rw [if_neg htp] at h
    obtain ⟨pct, -, h⟩ := bind_ok h
    have hm' := pure_ok h
    split at hm'
    · subst hm'
      left
      rfl
    · subst hm'
      right
      rfl

/-- State effect of cancel_market: Proposed or Approved to Cancelled. -/
theorem cancel_market_state {cfg : GlobalConfig} {sig : Nat} {m : Market}
    {now : Int} {m' : Market}
    (h : cancel_market cfg sig m now = .ok m') :
    (m.state = .Proposed ∨ m.state = .Approved) ∧ m'.state = .Cancelled := by
  unfold cancel_market at h
  obtain ⟨u1, -, h⟩ := bind_ok h
  obtain ⟨u2, -, h⟩ := bind_ok h
  obtain ⟨u3, hreq3, h⟩ := bind_ok h
  have hst : m.state = .Proposed ∨ m.state = .Approved := req_ok hreq3
  have hm' := pure_ok h
  subst hm'
  exact ⟨hst, rfl⟩

/-- A successful transition_state is exactly the state overwrite. -/
theorem transition_state_ok_eq {m : Market} {s : MarketState} {m' : Market}
    (h : m.transition_state s = .ok m') :
    m' = { m with state := s } ∧ m.can_transition_to s = true := by
  unfold Market.transition_state at h
  split at h
  · next hc =>
    simp only [Except.ok.injEq] at h
    exact ⟨h.symm, hc⟩
  · next hc =>
    simp at h

end StateLemmas

/-- Global configuration fixture with the documented default parameters. -/
def testConfig : GlobalConfig :=
  { admin := 1, backend_authority := 2, protocol_fee_wallet := 3,
    protocol_fee_bps := 300, resolver_reward_bps := 200,
    liquidity_provider_fee_bps := 500, proposal_approval_threshold := 7000,
    dispute_success_threshold := 6000, min_resolution_delay := 86400,
    dispute_period := 259200, min_resolver_reputation := 8000,
    is_paused := false }

/-- Baseline market fixture in the Proposed state. -/
def baseMarket : Market :=
  { market_id := 7, creator := 10, state := .Proposed, b_parameter := MIN_B,
    initial_liquidity := 10 * PRECISION, current_liquidity := 10 * PRECISION,
    shares_yes := 0, shares_no := 0, total_volume := 0, created_at := 1000,
    approved_at := 0, activated_at := 0, resolution_proposed_at := 0,
    resolved_at := 0, finalized_at := 0, resolver := 0,
    proposed_outcome := none, final_outcome := none, ipfs_evidence_hash := 0,
    dispute_initiated_at := 0, dispute_initiator := 0,
    accumulated_protocol_fees := 0, accumulated_resolver_fees := 0,
    accumulated_lp_fees := 0, proposal_likes := 0, proposal_dislikes := 0,
    proposal_total_votes := 0, resolution_agree := 0, resolution_disagree := 0,
    resolution_total_votes := 0, dispute_agree := 0, dispute_disagree := 0,
    dispute_total_votes := 0, was_disputed := false, is_cancelled := false,
    cancelled_at := none }

/-- C5: the finalize_market instruction indeed runs the bounded-loss verifier
before committing Finalized: every successful run ends in Finalized and
implies the verifier accepted the market's liquidity figures. (The claim
fails for the other Finalized-writing path; see the counterexample.) -/
theorem C5_finalize_runs_verifier (cfg : GlobalConfig) (sig : Nat) (m : Market)
    (da dd : Option Nat) (now : Int) (m' : Market)
    (h : finalize_market cfg sig m da dd now = .ok m') :
    m'.state = .Finalized ∧
    verify_bounded_loss m.initial_liquidity m.current_liquidity m.b_parameter =
      .ok () :=
  ⟨(finalize_market_state h).2.1, (finalize_market_state h).2.2⟩

/-- Market fixture: Resolving, with a proposed outcome and consistent
timestamps. -/
def mResolving5 : Market :=
  { baseMarket with
    state := .Resolving
    proposed_outcome := some true
    activated_at := 1500
    resolution_proposed_at := 2000 }

/-- Result of finalizing mResolving5 at time 261201. -/
def mFinal5 : Market :=
  { mResolving5 with
    final_outcome := some true
    was_disputed := false
    finalized_at := 261201
    state := .Finalized }

/-- Witness for C5: an undisputed finalization after the dispute window
commits Finalized with the verifier passing. -/
theorem C5_finalize_runs_verifier_witness :
    mFinal5.state = .Finalized ∧
    verify_bounded_loss mResolving5.initial_liquidity
      mResolving5.current_liquidity mResolving5.b_parameter = .ok () :=
  C5_finalize_runs_verifier testConfig 2 mResolving5 none none 261201 mFinal5 rfl

/-- Market fixture: Disputed with a catastrophic (bound-exceeding) loss. -/
def mLossyDisputed : Market :=
  { baseMarket with
    state := .Disputed
    proposed_outcome := some true
    initial_liquidity := 1000 * PRECISION
    current_liquidity := 0
    b_parameter := MIN_B }

/-- C5 counterexample: aggregate_dispute_votes commits state = Finalized (on
a failed dispute) without invoking the bounded-loss verifier, even on a
market whose loss the verifier would reject. -/
theorem C5_counterexample :
    (aggregate_dispute_votes testConfig 2 mLossyDisputed 1 1 0).map Market.state =
      .ok .Finalized ∧
    verify_bounded_loss mLossyDisputed.initial_liquidity
      mLossyDisputed.current_liquidity mLossyDisputed.b_parameter =
      .error .BoundedLossExceeded :=
  ⟨rfl, rfl⟩

/-- Edge set claimed by the specification text (§4.6 plus the admin
cancellation side branch). -/
def claimedEdge (s t : MarketState) : Bool :=
  match s, t with
  | .Proposed, .Approved => true
  | .Approved, .Active => true
  | .Active, .Resolving => true
  | .Resolving, .Disputed => true
  | .Resolving, .Finalized => true
  | .Disputed, .Finalized => true
  | .Proposed, .Cancelled => true
  | .Approved, .Cancelled => true
  | _, _ => false

/-- The edge set the code actually realizes: the claimed edges plus the
Disputed to Resolving rollback that aggregate_dispute_votes performs by
direct assignment. -/
def amendedEdge (s t : MarketState) : Bool :=
  claimedEdge s t || (s = .Disputed && t = .Resolving)

/-- C6 amended: every successful state-writing instruction either leaves the
state unchanged or moves along the claimed edges extended with the Disputed
to Resolving rollback, and no instruction runs at all on a Cancelled or
Finalized market (the terminal states stay terminal). -/
theorem C6_state_transitions (op : Op) (m m' : Market) (h : step op m = .ok m') :
    (m'.state = m.state ∨ amendedEdge m.state m'.state = true) ∧
    m.state ≠ .Cancelled ∧ m.state ≠ .Finalized := by
  cases op with
  | aggregateProposalVotes cfg sig l d now =>
    obtain ⟨hfrom, hto⟩ := aggregate_proposal_votes_state h
    rcases hto with hto | hto
    · exact ⟨Or.inl (by rw [hto, hfrom]), by rw [hfrom]; decide, by rw [hfrom]; decide⟩
    · exact ⟨Or.inr (by rw [hto, hfrom]; decide), by rw [hfrom]; decide,
        by rw [hfrom]; decide⟩
  | approveProposal cfg sig now =>
    obtain ⟨hfrom, hto⟩ := approve_proposal_state h
    exact ⟨Or.inr (by rw [hto, hfrom]; decide), by rw [hfrom]; decide,
      by rw [hfrom]; decide⟩
  | activateMarket cfg a now =>
    obtain ⟨hfrom, hto⟩ := activate_market_state h
    exact ⟨Or.inr (by rw [hto, hfrom]; decide), by rw [hfrom]; decide,
      by rw [hfrom]; decide⟩
  | resolveMarket po ev rk now =>
    obtain ⟨hfrom, hto⟩ := resolve_market_state h
    exact ⟨Or.inr (by rw [hto, hfrom]; decide), by rw [hfrom]; decide,
      by rw [hfrom]; decide⟩
  | initiateDispute cfg i now =>
    obtain ⟨hfrom, hto⟩ := initiate_dispute_state h
    exact ⟨Or.inr (by rw [hto, hfrom]; decide), by rw [hfrom]; decide,
      by rw [hfrom]; decide⟩
  | finalizeMarket cfg sig da dd now =>
    obtain ⟨hfrom, hto, -⟩ := finalize_market_state h
    rcases hfrom with hfrom | hfrom
    · exact ⟨Or.inr (by rw [hto, hfrom]; decide), by rw [hfrom]; decide,
        by rw [hfrom]; decide⟩
    · exact ⟨Or.inr (by rw [hto, hfrom]; decide), by rw [hfrom]; decide,
        by rw [hfrom]; decide⟩
  | aggregateDisputeVotes cfg sig a d now =>
    obtain ⟨hfrom, hto⟩ := aggregate_dispute_votes_state h
    rcases hto with hto | hto
    · exact ⟨Or.inr (by rw [hto, hfrom]; decide), by rw [hfrom]; decide,
        by rw [hfrom]; decide⟩
    · exact ⟨Or.inr (by rw [hto, hfrom]; decide), by rw [hfrom]; decide,
        by rw [hfrom]; decide⟩
  | cancelMarket cfg sig now =>
    obtain ⟨hfrom, hto⟩ := cancel_market_state h
    rcases hfrom with hfrom | hfrom
    · exact ⟨Or.inr (by rw [hto, hfrom]; decide), by rw [hfrom]; decide,
        by rw [hfrom]; decide⟩
    · exact ⟨Or.inr (by rw [hto, hfrom]; decide), by rw [hfrom]; decide,
        by rw [hfrom]; decide⟩

/-- Result of cancelling baseMarket at time 99. -/
def mCancelled : Market :=
  { baseMarket with
    state := .Cancelled
    cancelled_at := some 99 }

/-- Witness for C6 amended: the admin cancellation of a Proposed market moves
along an allowed edge from a non-terminal state. -/
theorem C6_state_transitions_witness :
    (mCancelled.state = baseMarket.state ∨
      amendedEdge baseMarket.state mCancelled.state = true) ∧
    baseMarket.state ≠ .Cancelled ∧ baseMarket.state ≠ .Finalized :=
  C6_state_transitions (.cancelMarket testConfig 1 99) baseMarket mCancelled rfl

/-- Market fixture: Disputed with a proposed YES outcome. -/
def mDisputed6 : Market :=
  { baseMarket with
    state := .Disputed
    proposed_outcome := some true
    activated_at := 1500
    resolution_proposed_at := 2000 }

/-- C6 counterexample: a successful dispute tally (6000 bps at the 6000
threshold) makes aggregate_dispute_votes move a Disputed market back to
Resolving: a transition outside the claimed edge set that does not fail with
InvalidStateTransition. -/
theorem C6_counterexample :
    (aggregate_dispute_votes testConfig 2 mDisputed6 3 2 0).map Market.state =
      .ok .Resolving ∧
    mDisputed6.state = .Disputed ∧
    claimedEdge .Disputed .Resolving = false :=
  ⟨rfl, rfl, rfl⟩

/-- C7 amended: in finalize_market, finalizing a Disputed market with tallies
(a, d) evaluates a·10000/(a+d) against dispute_success_threshold with an
inclusive comparison; when met the proposed outcome is flipped (YES and NO
swap, INVALID stays INVALID), otherwise the proposed outcome stands. (The
other Disputed-state path, aggregate_dispute_votes, behaves differently; see
the counterexample.) -/
theorem C7_dispute_flip (cfg : GlobalConfig) (sig : Nat) (m : Market)
    (a d : Nat) (now : Int) (m' : Market) (hs : m.state = .Disputed)
    (h : finalize_market cfg sig m (some a) (some d) now = .ok m') :
    m'.state = .Finalized ∧ 0 < a + d ∧
    m'.final_outcome =
      (if a * 10000 / (a + d) ≥ cfg.dispute_success_threshold then
        (match m.proposed_outcome with
          | some true => some false
          | some false => some true
          | none => none)
      else m.proposed_outcome) := by
  unfold finalize_market at h
  obtain ⟨u1, -, h⟩ := bind_ok h
  obtain ⟨u2, -, h⟩ := bind_ok h
  obtain ⟨u3, -, h⟩ := bind_ok h
  obtain ⟨mt, -, h⟩ := bind_ok h
  obtain ⟨u4, -, h⟩ := bind_ok h
  obtain ⟨u5, -, h⟩ := bind_ok h
  simp only [] at h
  rw [if_pos hs] at h
  obtain ⟨agree, hag, h⟩ := bind_ok h
  have hagv : some a = some agree := liftOpt_ok hag
  obtain ⟨disagree, hdis, h⟩ := bind_ok h
  have hdisv : some d = some disagree := liftOpt_ok hdis
  rw [Option.some.injEq] at hagv hdisv
  subst hagv
  subst hdisv
  obtain ⟨total, htot, h⟩ := bind_ok h
  obtain ⟨htotv, -⟩ := checkedAdd32_some (liftOpt_ok htot)
  obtain ⟨u6, hreq6, h⟩ := bind_ok h
  have htpos : total > 0 := req_ok hreq6
  obtain ⟨a1, ha1, h⟩ := bind_ok h
  obtain ⟨ha1v, -⟩ := checkedMul64_some (liftOpt_ok ha1)
  obtain ⟨rate, hrate, h⟩ := bind_ok h
  obtain ⟨hratev, -⟩ := checkedDiv64_some (liftOpt_ok hrate)
  obtain ⟨r, hr, h⟩ := bind_ok h
  have hrv := pure_ok hr
  subst hrv
  obtain ⟨u7, -, h⟩ := bind_ok h
  obtain ⟨hm'eq, -⟩ := transition_state_ok_eq h
  subst hm'eq
  subst htotv
  subst ha1v
  subst hratev
  refine ⟨rfl, htpos, rfl⟩

/-- Market fixture for C7: Disputed with a proposed YES outcome. -/
def mDisputed7 : Market :=
  { baseMarket with
    state := .Disputed
    proposed_outcome := some true
    activated_at := 1500
    resolution_proposed_at := 2000 }

/-- Result of finalizing mDisputed7 at time 261201 with a 3:1 dispute tally:
the dispute succeeds and the outcome flips to NO. -/
def mFinal7 : Market :=
  { mDisputed7 with
    dispute_agree := 3
    dispute_disagree := 1
    dispute_total_votes := 4
    final_outcome := some false
    was_disputed := true
    finalized_at := 261201
    state := .Finalized }

/-- Witness for C7 amended: a 7500-bps agreement against the 6000-bps
threshold finalizes the market and flips YES to NO. -/
theorem C7_dispute_flip_witness :
    mFinal7.state = .Finalized ∧ 0 < 3 + 1 ∧
    mFinal7.final_outcome =
      (if 3 * 10000 / (3 + 1) ≥ testConfig.dispute_success_threshold then
        (match mDisputed7.proposed_outcome with
          | some true => some false
          | some false => some true
          | none => none)
      else mDisputed7.proposed_outcome) :=
  C7_dispute_flip testConfig 2 mDisputed7 3 1 261201 mFinal7 rfl rfl

/-- C7 counterexample: the other Disputed-state path,
aggregate_dispute_votes, transitions to Finalized precisely when the
agreement rate is BELOW the threshold, and does so without writing
final_outcome, which stays none although the proposed outcome was YES -
contradicting the claim that a below-threshold tally finalizes with the
original proposed outcome. -/
theorem C7_counterexample :
    (aggregate_dispute_votes testConfig 2 mDisputed7 1 1 0).map
      (fun mm => (mm.state, mm.final_outcome)) = .ok (.Finalized, none) ∧
    mDisputed7.proposed_outcome = some true ∧
    1 * 10000 / (1 + 1) < testConfig.dispute_success_threshold :=
  ⟨rfl, rfl, by decide⟩

/-- C8 amended: aggregate_proposal_votes runs only on Proposed markets and
approves exactly when the basis-point ratio (taken as 0 when no votes were
submitted) reaches the threshold inclusively; with any positive threshold,
zero total votes never approves, but with a zero threshold it does. -/
theorem C8_proposal_aggregation (cfg : GlobalConfig) (sig : Nat) (m : Market)
    (likes dislikes : Nat) (now : Int) (m' : Market)
    (h : aggregate_proposal_votes cfg sig m likes dislikes now = .ok m') :
    m.state = .Proposed ∧
    (m'.state = .Approved ↔
      (if 0 < likes + dislikes then likes * 10000 / (likes + dislikes) else 0) ≥
        cfg.proposal_approval_threshold) ∧
    (0 < cfg.proposal_approval_threshold → likes + dislikes = 0 →
      m'.state = .Proposed) := by
  unfold aggregate_proposal_votes at h
  obtain ⟨u1, hreq1, h⟩ := bind_ok h
  have hst : m.state = .Proposed := req_ok hreq1
  obtain ⟨u2, -, h⟩ := bind_ok h
  obtain ⟨u3, -, h⟩ := bind_ok h
  obtain ⟨total, htot, h⟩ := bind_ok h
  obtain ⟨htotv, -⟩ := checkedAdd32_some (liftOpt_ok htot)
  subst htotv
  simp only [] at h
  by_cases htp : likes + dislikes > 0
  · rw [if_pos htp] at h
    obtain ⟨p, hp, h⟩ := bind_ok h
    obtain ⟨hpv, -⟩ := checkedMul64_some (liftOpt_ok hp)
    subst hpv
    obtain ⟨y, hy, h⟩ := bind_ok h
    have hyv := pure_ok hy
    subst hyv
    have hm' := pure_ok h
    rw [if_pos htp]
    by_cases hge : likes * 10000 / (likes + dislikes) ≥ cfg.proposal_approval_threshold
    · rw [if_pos hge] at hm'
      subst hm'
      exact ⟨hst, ⟨fun _ => hge, fun _ => rfl⟩, fun _ hz => absurd hz (by omega)⟩
    · rw [if_neg hge] at hm'
      subst hm'
      refine ⟨hst, ⟨fun hap => ?_, fun hge2 => absurd hge2 hge⟩,
        fun _ hz => absurd hz (by omega)⟩
      rw [hst] at hap
      exact absurd hap (by decide)
  · rw [if_neg htp] at h
    obtain ⟨y, hy, h⟩ := bind_ok h
    have hyv := pure_ok hy
    subst hyv
    have hm' := pure_ok h
    rw [if_neg htp]
    by_cases hge : (0 : Nat) ≥ cfg.proposal_approval_threshold
    · rw [if_pos hge] at hm'
      subst hm'
      exact ⟨hst, ⟨fun _ => hge, fun _ => rfl⟩, fun hpos _ => absurd hge (by omega)⟩
    · rw [if_neg hge] at hm'
      subst hm'
      refine ⟨hst, ⟨fun hap => ?_, fun hge2 => absurd hge2 hge⟩, fun _ _ => hst⟩
      rw [hst] at hap
      exact absurd hap (by decide)

/-- Result of aggregating a 7:3 proposal tally on baseMarket at the 7000-bps
threshold: exactly 70 percent approves. -/
def mApproved8 : Market :=
  { baseMarket with
    proposal_likes := 7
    proposal_dislikes := 3
    state := .Approved
    approved_at := 5 }

/-- Witness for C8 amended: the 7:3 tally on a Proposed market reaches the
inclusive 7000-bps threshold and approves. -/
theorem C8_proposal_aggregation_witness :
    baseMarket.state = .Proposed ∧
    (mApproved8.state = .Approved ↔
      (if 0 < 7 + 3 then 7 * 10000 / (7 + 3) else 0) ≥
        testConfig.proposal_approval_threshold) ∧
    (0 < testConfig.proposal_approval_threshold → 7 + 3 = 0 →
      mApproved8.state = .Proposed) :=
  C8_proposal_aggregation testConfig 2 baseMarket 7 3 5 mApproved8 rfl

/-- Configuration fixture with a zero proposal-approval threshold (admitted
by GlobalConfig::validate, which only requires thresholds at most 10000). -/
def zeroThresholdConfig : GlobalConfig :=
  { testConfig with proposal_approval_threshold := 0 }

/-- C8 counterexample: with threshold 0 and an empty tally (zero total
votes), aggregate_proposal_votes still approves, because the zero-vote
ratio 0 bps is compared inclusively against the threshold - refuting the
claim that zero total votes never approves for any threshold. -/
theorem C8_counterexample :
    (aggregate_proposal_votes zeroThresholdConfig 2 baseMarket 0 0 5).map
      Market.state = .ok .Approved ∧
    (0 : Nat) + 0 = 0 :=
  ⟨rfl, rfl⟩

section BuySearch

/-- A successful fixed_exp constrains its argument: the checked subtraction
PRECISION - x/2 in the Padé denominator only succeeds for x ≤ 2·PRECISION+1. -/
theorem fixed_exp_ok_le {x e : Nat} (h : fixed_exp x = .ok e) :
    x ≤ 2 * PRECISION + 1 := by
  unfold fixed_exp at h
  obtain ⟨u, -, h⟩ := bind_ok h
  obtain ⟨x2, -, h⟩ := bind_ok h
  obtain ⟨n1, -, h⟩ := bind_ok h
  obtain ⟨num, -, h⟩ := bind_ok h
  obtain ⟨d1, hd1, h⟩ := bind_ok h
  obtain ⟨-, hle⟩ := checkedSub64_some (liftOpt_ok hd1)
  have hP : PRECISION = 1000000000 := rfl
  omega

/-- fixed_exp_negative inherits the same domain bound. -/
theorem fixed_exp_negative_ok_le {x v : Nat} (h : fixed_exp_negative x = .ok v) :
    x ≤ 2 * PRECISION + 1 := by
  unfold fixed_exp_negative at h
  obtain ⟨e, he, -⟩ := bind_ok h
  exact fixed_exp_ok_le he

/-- A successful log_sum_exp means the two exponent arguments are within
2·PRECISION+1 of each other. -/
theorem log_sum_exp_ok_close {x y l : Nat} (h : log_sum_exp x y = .ok l) :
    x - y ≤ 2 * PRECISION + 1 ∧ y - x ≤ 2 * PRECISION + 1 := by
  unfold log_sum_exp at h
  simp only [] at h
  by_cases hxy : x ≥ y
  · rw [if_pos hxy] at h
    obtain ⟨d, hd, h⟩ := bind_ok h
    obtain ⟨hdv, -⟩ := checkedSub64_some (liftOpt_ok hd)
    obtain ⟨md, hmd, h⟩ := bind_ok h
    have hmdv := pure_ok hmd
    subst hmdv
    obtain ⟨e, he, -⟩ := bind_ok h
    have hdle : d ≤ 2 * PRECISION + 1 := fixed_exp_negative_ok_le he
    omega
  · rw [if_neg hxy] at h
    obtain ⟨d, hd, h⟩ := bind_ok h
    obtain ⟨hdv, -⟩ := checkedSub64_some (liftOpt_ok hd)
    obtain ⟨md, hmd, h⟩ := bind_ok h
    have hmdv := pure_ok hmd
    subst hmdv
    obtain ⟨e, he, -⟩ := bind_ok h
    have hdle : d ≤ 2 * PRECISION + 1 := fixed_exp_negative_ok_le he
    omega

/-- A successful cost_function forces b ≥ MIN_B and the two normalized share
quantities to be within 2·PRECISION+1 of each other. -/
theorem cost_function_ok_decomp {qy qn b v : Nat}
    (h : cost_function qy qn b = .ok v) :
    MIN_B ≤ b ∧
    qy * PRECISION / b - qn * PRECISION / b ≤ 2 * PRECISION + 1 ∧
    qn * PRECISION / b - qy * PRECISION / b ≤ 2 * PRECISION + 1 := by
  unfold cost_function at h
  obtain ⟨u, hreq, h⟩ := bind_ok h
  have hb : b ≥ MIN_B := req_ok hreq
  obtain ⟨x, hx, h⟩ := bind_ok h
  obtain ⟨-, hxv⟩ := fixed_div_ok hx
  obtain ⟨y, hy, h⟩ := bind_ok h
  obtain ⟨-, hyv⟩ := fixed_div_ok hy
  obtain ⟨l, hl, -⟩ := bind_ok h
  obtain ⟨h1, h2⟩ := log_sum_exp_ok_close hl
  subst hxv
  subst hyv
  exact ⟨hb, h1, h2⟩

/-- Shifting the YES side by 10·b shifts its normalized quantity by exactly
10·PRECISION. -/
theorem probe_div_shift (q b : Nat) (hb : 0 < b) :
    (q + 10 * b) * PRECISION / b = q * PRECISION / b + 10 * PRECISION := by
  have hrw : (q + 10 * b) * PRECISION = q * PRECISION + b * (10 * PRECISION) := by
    ring
  rw [hrw, Nat.add_mul_div_left _ _ hb]

/-- The binary search probe on the YES side throws the exponent out of the
feasible band, so the probed cost_function call cannot succeed. -/
theorem cost_function_probe_err_yes {qy qn b v : Nat} (hb : MIN_B ≤ b)
    (hd2 : qn * PRECISION / b - qy * PRECISION / b ≤ 2 * PRECISION + 1) :
    cost_function (qy + 10 * b) qn b ≠ .ok v := by
  intro h
  have hb0 : 0 < b := by
    have : (0 : Nat) < MIN_B := by decide
    omega
  obtain ⟨-, hfar, -⟩ := cost_function_ok_decomp h
  rw [probe_div_shift qy b hb0] at hfar
  have hP : PRECISION = 1000000000 := rfl
  omega

/-- The binary search probe on the NO side likewise cannot succeed. -/
theorem cost_function_probe_err_no {qy qn b v : Nat} (hb : MIN_B ≤ b)
    (hd1 : qy * PRECISION / b - qn * PRECISION / b ≤ 2 * PRECISION + 1) :
    cost_function qy (qn + 10 * b) b ≠ .ok v := by
  intro h
  have hb0 : 0 < b := by
    have : (0 : Nat) < MIN_B := by decide
    omega
  obtain ⟨-, -, hfar⟩ := cost_function_ok_decomp h
  rw [probe_div_shift qn b hb0] at hfar
  have hP : PRECISION = 1000000000 := rfl
  omega

/-- The first iteration of the binary search, started on the full range
[0, 20·b], always probes mid = 10·b and therefore always fails. -/
theorem sfcLoop_start_err {qy qn b : Nat} {outcome : Bool}
    {target cb r fuel : Nat} (hb : MIN_B ≤ b)
    (hd1 : qy * PRECISION / b - qn * PRECISION / b ≤ 2 * PRECISION + 1)
    (hd2 : qn * PRECISION / b - qy * PRECISION / b ≤ 2 * PRECISION + 1) :
    sfcLoop qy qn b outcome target cb (PRECISION / 1000) (fuel + 1) 0 (20 * b) ≠
      .ok r := by
  intro h
  simp only [sfcLoop] at h
  obtain ⟨gap, hgap, h⟩ := bind_ok h
  obtain ⟨hgapv, -⟩ := checkedSub64_some (liftOpt_ok hgap)
  have hMB : MIN_B = 100000000000 := rfl
  have hP : PRECISION = 1000000000 := rfl
  have hgt : ¬ (gap ≤ PRECISION / 1000) := by omega
  rw [if_neg hgt] at h
  obtain ⟨half, hhalf, h⟩ := bind_ok h
  obtain ⟨hhalfv, -⟩ := checkedSub64_some (liftOpt_ok hhalf)
  obtain ⟨mid, hmid, h⟩ := bind_ok h
  obtain ⟨hmidv, -⟩ := checkedAdd64_some (liftOpt_ok hmid)
  have hm10 : mid = 10 * b := by omega
  subst hm10
  cases outcome with
  | true =>
    rw [if_pos rfl] at h
    obtain ⟨ny, hny, h⟩ := bind_ok h
    obtain ⟨hnyv, -⟩ := checkedAdd64_some (liftOpt_ok hny)
    subst hnyv
    obtain ⟨qs, hqs, h⟩ := bind_ok h
    have hqsv := pure_ok hqs
    subst hqsv
    obtain ⟨ca, hca, -⟩ := bind_ok h
    exact cost_function_probe_err_yes hb hd2 hca
  | false =>
    rw [if_neg (by simp)] at h
    obtain ⟨nn, hnn, h⟩ := bind_ok h
    obtain ⟨hnnv, -⟩ := checkedAdd64_some (liftOpt_ok hnn)
    subst hnnv
    obtain ⟨qs, hqs, h⟩ := bind_ok h
    have hqsv := pure_ok hqs
    subst hqsv
    obtain ⟨ca, hca, -⟩ := bind_ok h
    exact cost_function_probe_err_no hb hd1 hca

/-- shares_for_cost can never return Ok: on any input whose initial cost
evaluation succeeds, the first binary-search probe adds 10·b shares to one
side, pushing the exponent argument past the point where fixed_exp's checked
subtraction underflows. -/
theorem shares_for_cost_no_ok (qy qn b : Nat) (outcome : Bool) (target r : Nat) :
    shares_for_cost qy qn b outcome target ≠ .ok r := by
  intro h
  unfold shares_for_cost at h
  obtain ⟨cb, hcb, h⟩ := bind_ok h
  obtain ⟨hb, hd1, hd2⟩ := cost_function_ok_decomp hcb
  obtain ⟨ms, hms, h⟩ := bind_ok h
  obtain ⟨hmsv, -⟩ := checkedMul64_some (liftOpt_ok hms)
  subst hmsv
  exact sfcLoop_start_err hb hd1 hd2 h

end BuySearch

/-- C10: the guarantee claimed for successful buys is unreachable: the share
search (and with it calculate_buy_cost and buy_shares) fails on every input,
because the very first binary-search probe at mid = 10·b drives the
normalized quantity gap past fixed_exp's usable domain. In particular a
perfectly ordinary buy request errors with UnderflowError. -/
theorem C10_buy_search_always_fails :
    (∀ (q_yes q_no b : Nat) (outcome : Bool) (target : Nat),
      ∃ e, shares_for_cost q_yes q_no b outcome target = .error e) ∧
    (∀ (q_yes q_no b : Nat) (outcome : Bool) (target : Nat),
      ∃ e, calculate_buy_cost q_yes q_no b outcome target = .error e) ∧
    MIN_TRADE_AMOUNT ≤ 10 * PRECISION ∧
    calculate_buy_cost 0 0 MIN_B true (10 * PRECISION) = .error .UnderflowError := by
  have hsfc : ∀ (qy qn b : Nat) (o : Bool) (t : Nat),
      ∃ e, shares_for_cost qy qn b o t = .error e := by
    intro qy qn b o t
    cases hres : shares_for_cost qy qn b o t with
    | ok r => exact absurd hres (shares_for_cost_no_ok qy qn b o t r)
    | error e => exact ⟨e, rfl⟩
  refine ⟨hsfc, ?_, by decide, rfl⟩
  intro qy qn b o t
  obtain ⟨e, he⟩ := hsfc qy qn b o t
  refine ⟨e, ?_⟩
  unfold calculate_buy_cost
  rw [he]
  rfl

end ZmartCore
